import Mathlib

/-!
Shallow embedding of the ADW workflow orchestration engine
(`adws/adw_ralph_iso.py` and `adws/adw_modules/`): port allocation,
git checkpoint commits, the agent retry wrapper, output truncation and
the backpressure loop, together with proofs of the specification's
testable properties about them.

External effects (sockets, subprocesses, the filesystem, the agent CLI)
are modelled as explicit environment parameters; the pure logic of each
Python function is translated directly.
-/

namespace ADW

/-! ## Python string primitives used by the source -/

/-- Python `str.strip()` whitespace set (ASCII fragment). -/
def pyIsSpace (c : Char) : Bool :=
  c = ' ' || c = '\t' || c = '\n' || c = '\r' || c = '\x0b' || c = '\x0c'

/-- Python `str.strip()` on the character list. -/
def pyStripList (cs : List Char) : List Char :=
  ((cs.dropWhile pyIsSpace).reverse.dropWhile pyIsSpace).reverse

/-- Python `str.strip()`. -/
def pyStrip (s : String) : String := String.mk (pyStripList s.data)

/-- Python `str.isalnum` for ASCII characters (the identifiers handled by
the workflow are ASCII; non-ASCII alphanumerics are not modelled). -/
def pyIsAlnum (c : Char) : Bool := c.isAlphanum

/-- Python `s.split("\n")` on the character list: `""` splits to `[""]`,
and every separator occurrence produces a new (possibly empty) field. -/
def splitNlList : List Char → List (List Char)
  | [] => [[]]
  | c :: cs =>
    let r := splitNlList cs
    if c = '\n' then [] :: r
    else
      match r with
      | h :: t => (c :: h) :: t
      | [] => [[c]]

/-- Python `s.split("\n")`. -/
def splitNl (s : String) : List String := (splitNlList s.data).map String.mk

/-- Python slice-index clamping: a negative index counts from the end and
is clamped to `0`; an index past the end is clamped to the length. -/
def pySliceIdx (n : Nat) (i : Int) : Nat :=
  if i < 0 then ((n : Int) + i).toNat else min i.toNat n

/-- Python `s[:j]` (endpoint only), as a count of characters kept. -/
def pySliceEnd (n : Nat) (j : Int) : Nat := pySliceIdx n j

/-- Python `s.rfind(c, start, stop)` for a single-character needle:
the largest index `i` with `start ≤ i < stop` (after slice clamping)
such that `s[i] = c`, or `-1`. -/
def pyRfindChar (s : String) (c : Char) (start stop : Int) : Int :=
  let n := s.length
  let st := pySliceIdx n start
  let en := pySliceIdx n stop
  match (((List.range en).drop st).reverse.find? fun i => s.data.getD i '\x00' = c) with
  | some i => (i : Int)
  | _ => -1

/-- Python `p in s` (substring containment). -/
def strContains (s pat : String) : Bool :=
  (List.range (s.length + 1)).any fun i => pat.data.isPrefixOf (s.data.drop i)

/-- Python `s.startswith(p)`. -/
def strStartsWith (s p : String) : Bool := p.data.isPrefixOf s.data

/-- Python `s[:n]` for a non-negative count. -/
def strTake (s : String) (n : Nat) : String := String.mk (s.data.take n)

/-! ## `worktree_ops.get_ports_for_adw` (deterministic port assignment) -/

/-- Base-36 digit value of a character, as accepted by Python `int(_, 36)`. -/
def digitVal36 (c : Char) : Option Nat :=
  if c.isDigit then some (c.toNat - 48)
  else if 'a' ≤ c && c ≤ 'z' then some (c.toNat - 87)
  else if 'A' ≤ c && c ≤ 'Z' then some (c.toNat - 55)
  else none

/-- Python `int(s, 36)` on an alphanumeric string: `none` models the
`ValueError` raised on an empty string or an invalid digit. -/
def int36 (s : String) : Option Nat :=
  if s.data.isEmpty then none
  else s.data.foldl (fun acc c => acc.bind fun n => (digitVal36 c).map fun d => n * 36 + d)
    (some 0)

/-- `get_ports_for_adw`: deterministically assign ports from the ADW id.
`pyHash` models Python's builtin `hash` (process-seeded, so a parameter). -/
def get_ports_for_adw (pyHash : String → Int) (adw_id : String) : Nat × Nat :=
  let id_chars : String := String.mk ((adw_id.data.take 8).filter pyIsAlnum)
  let index : Nat :=
    match int36 id_chars with
    | some n => n % 15
    | _ => ((pyHash adw_id).emod 15).toNat
  (9100 + index, 9200 + index)

/-- `find_next_available_ports`: probe up to `max_attempts` slots starting
at the deterministic index, wrapping modulo 15; `avail` models
`is_port_available` (a bind probe on localhost). `Except.error` models the
`RuntimeError` raised on exhaustion. -/
def find_next_available_ports (pyHash : String → Int) (avail : Nat → Bool)
    (adw_id : String) (max_attempts : Nat) : Except String (Nat × Nat) :=
  let base := get_ports_for_adw pyHash adw_id
  let base_index := base.1 - 9100
  match (List.range max_attempts).find? (fun offset =>
      let index := (base_index + offset) % 15
      avail (9100 + index) && avail (9200 + index)) with
  | some offset =>
    let index := (base_index + offset) % 15
    Except.ok (9100 + index, 9200 + index)
  | _ => Except.error "No available ports in the allocated range"

/-- The order in which `find_next_available_ports` visits slot indices. -/
def probeOrder (base_index : Nat) : List Nat :=
  (List.range 15).map fun offset => (base_index + offset) % 15

/-! ## `git_ops.commit_changes` (checkpoint commit) -/

/-- The git subprocesses `commit_changes` can run, in order. -/
inductive GitCmd
  | statusPorcelain
  | addAll
  | commit (message : String)
  deriving DecidableEq, Repr

/-- Outcomes of the three git subprocesses, as observed by `commit_changes`:
the `git status --porcelain` stdout and the return codes / stderr of
`git add -A` and `git commit -m`. -/
structure GitEnv where
  status_stdout : String
  add_returncode : Int
  add_stderr : String
  commit_returncode : Int
  commit_stderr : String

/-- `commit_changes`: stage everything and commit, but first return success
immediately when `git status --porcelain` prints nothing. Besides the
`(success, error)` pair the model records which git commands were run. -/
def commit_changes (env : GitEnv) (message : String) :
    (Bool × Option String) × List GitCmd :=
  if (pyStrip env.status_stdout).data.isEmpty then
    ((true, none), [GitCmd.statusPorcelain])
  else if env.add_returncode ≠ 0 then
    ((false, some env.add_stderr), [GitCmd.statusPorcelain, GitCmd.addAll])
  else if env.commit_returncode ≠ 0 then
    ((false, some env.commit_stderr),
      [GitCmd.statusPorcelain, GitCmd.addAll, GitCmd.commit message])
  else
    ((true, none), [GitCmd.statusPorcelain, GitCmd.addAll, GitCmd.commit message])

/-! ## `data_types.py` records used by the orchestration loop -/

/-- `data_types.TestResult`. -/
structure TestResult where
  test_name : String
  passed : Bool
  execution_command : String
  test_purpose : String
  error : Option String
  deriving DecidableEq, Repr

/-- Passed-test count, as computed in `run_tests`. -/
def passedCount (rs : List TestResult) : Nat := (rs.filter fun t => t.passed).length

/-- Failed-test count, as computed in `run_tests` (`len - passed`). -/
def failedCount (rs : List TestResult) : Nat := rs.length - passedCount rs

/-! ## `adw_ralph_iso.run_tests` and the backpressure loop -/

/-- What the `/test` agent invocation produced, as seen by `run_tests`:
the agent response failed outright, its output failed to parse as a
`List[TestResult]`, or it parsed to a list of results. -/
inductive TestPhaseOutcome
  | execFailed (output : String)
  | parseFailed
  | parsed (results : List TestResult)
  deriving DecidableEq, Repr

/-- `run_tests`: returns `(results, passed_count, failed_count)`; a failed
invocation or an unparseable output both yield `([], 0, 0)`. -/
def run_tests (o : TestPhaseOutcome) : List TestResult × Nat × Nat :=
  match o with
  | .execFailed _ => ([], 0, 0)
  | .parseFailed => ([], 0, 0)
  | .parsed rs => (rs, passedCount rs, failedCount rs)

/-- How one backpressure iteration ends: all tests passed (`done`, the
`break` after "All tests passed"), or the loop cap was hit (`abandoned`). -/
inductive LoopExit
  | done
  | abandoned
  deriving DecidableEq, Repr

/-- Observable actions of the backpressure loop, per iteration number. -/
inductive LoopEvent
  | build (n : Nat)
  | commit (n : Nat) (cmds : List GitCmd)
  | test (n : Nat) (passed failed : Nat)
  | writeFailures (n : Nat) (entries : List TestResult)
  | replan (n : Nat)
  | deleteFailures (n : Nat)
  deriving DecidableEq, Repr

/-- Environment of the backpressure loop in `main`: per-iteration results
of the external build phase, the git state at checkpoint time, the test
phase outcome, the re-planning phase result, plus the configuration that
is fixed before the loop starts. -/
structure LoopEnv where
  build : Nat → Bool × Option String
  git : Nat → GitEnv
  tests : Nat → TestPhaseOutcome
  replan : Nat → Bool × Option String
  skip_tests : Bool
  max_loops : Nat
  issue_number : String
  adw_id : String

/-- The checkpoint commit message built in `main` for loop `n`. -/
def buildCommitMsg (env : LoopEnv) (n : Nat) : String :=
  "feat: implement #" ++ env.issue_number ++ " (build loop " ++ toString n ++
    ")\n\nADW ID: " ++ env.adw_id

/-- Mutable state of the backpressure loop: the iteration counter, the
event trace, and whether `TEST_FAILURES.md` currently exists. -/
structure LoopState where
  n : Nat
  events : List LoopEvent
  filePresent : Bool
  deriving DecidableEq, Repr

/-- Result of one pass through the `while True` body. -/
inductive IterOut
  | exit (e : LoopExit) (all_tests_passed : Bool) (s : LoopState)
  | next (s : LoopState)
  deriving DecidableEq, Repr

/-- One iteration of the backpressure loop body of `main`
(`adw_ralph_iso.py:581-651`): build, checkpoint commit, test; stop on zero
failures or on the loop cap; otherwise write `TEST_FAILURES.md`, re-plan,
and delete the failure artifact (its deletion is guarded only by its
existence, not by the re-planning result). -/
def loopIter (env : LoopEnv) (s : LoopState) : IterOut :=
  let n := s.n + 1
  let _build_result := env.build n
  let commitRun := commit_changes (env.git n) (buildCommitMsg env n)
  let ev := s.events ++ [LoopEvent.build n, LoopEvent.commit n commitRun.2]
  if env.skip_tests then
    IterOut.exit LoopExit.done true ⟨n, ev, s.filePresent⟩
  else
    let tr := run_tests (env.tests n)
    let results := tr.1
    let failed := tr.2.2
    let ev := ev ++ [LoopEvent.test n tr.2.1 failed]
    if failed = 0 then
      IterOut.exit LoopExit.done true ⟨n, ev, s.filePresent⟩
    else if env.max_loops ≠ 0 ∧ n ≥ env.max_loops then
      IterOut.exit LoopExit.abandoned false ⟨n, ev, s.filePresent⟩
    else
      let failed_tests := results.filter fun t => !t.passed
      let ev := ev ++ [LoopEvent.writeFailures n failed_tests]
      let filePresent := true
      let _replan_result := env.replan n
      let ev := ev ++ [LoopEvent.replan n]
      let ev := if filePresent then ev ++ [LoopEvent.deleteFailures n] else ev
      let filePresent := if filePresent then false else filePresent
      IterOut.next ⟨n, ev, filePresent⟩

/-- Run the `while True` loop for at most `fuel` iterations; `none` in the
first component means the loop was still running after `fuel` iterations. -/
def loopRun (env : LoopEnv) : Nat → LoopState → Option (LoopExit × Bool) × LoopState
  | 0, s => (none, s)
  | fuel + 1, s =>
    match loopIter env s with
    | IterOut.exit e ap s' => (some (e, ap), s')
    | IterOut.next s' => loopRun env fuel s'

/-- The backpressure loop of `main`, started from its initial state. -/
def backpressureLoop (env : LoopEnv) (fuel : Nat) :
    Option (LoopExit × Bool) × LoopState :=
  loopRun env fuel ⟨0, [], false⟩

/-! ## A JSON value model and parser (for `json.loads` on single lines)

`truncate_output` feeds individual lines of its input to `json.loads`.
The model below implements the JSON grammar over `List Char`: strings,
numbers (integer or float, held as their exact decimal value), booleans,
null, arrays, objects, and the non-standard `NaN`/`Infinity`/`-Infinity`
constants that `json.loads` accepts by default. Python represents float
literals as IEEE doubles while this model keeps the exact rational; the
difference is unobservable in `truncate_output`, which passes numbers
only through structural matches and the truthiness test on `message`
(both insensitive to the numeric value). -/

/-- A parsed JSON value. Object fields keep their textual order;
lookups take the last binding, as `json.loads` does for duplicate keys. -/
inductive JsonVal
  | null
  | bool (b : Bool)
  | num (q : Rat)
  | nan
  | infinity (neg : Bool)
  | str (s : String)
  | arr (xs : List JsonVal)
  | obj (fields : List (String × JsonVal))

/-- JSON whitespace accepted between tokens. -/
def jsonWs (c : Char) : Bool := c = ' ' || c = '\t' || c = '\n' || c = '\r'

/-- Drop leading JSON whitespace. -/
def skipWs (cs : List Char) : List Char := cs.dropWhile jsonWs

/-- Hex digit value, for `\uXXXX` escapes. -/
def hexVal (c : Char) : Option Nat :=
  if c.isDigit then some (c.toNat - 48)
  else if 'a' ≤ c && c ≤ 'f' then some (c.toNat - 87)
  else if 'A' ≤ c && c ≤ 'F' then some (c.toNat - 55)
  else none

/-- Parse the body of a JSON string literal (after the opening quote),
returning the decoded characters and the input after the closing quote. -/
def parseStrBody : Nat → List Char → Option (List Char × List Char)
  | 0, _ => none
  | _, [] => none
  | fuel + 1, c :: cs =>
    if c = '"' then some ([], cs)
    else if c = '\\' then
      match cs with
      | [] => none
      | e :: cs' =>
        let decoded : Option (Char × List Char) :=
          if e = '"' then some ('"', cs')
          else if e = '\\' then some ('\\', cs')
          else if e = '/' then some ('/', cs')
          else if e = 'b' then some ('\x08', cs')
          else if e = 'f' then some ('\x0c', cs')
          else if e = 'n' then some ('\n', cs')
          else if e = 'r' then some ('\r', cs')
          else if e = 't' then some ('\t', cs')
          else if e = 'u' then
            match cs' with
            | h1 :: h2 :: h3 :: h4 :: rest =>
              match hexVal h1, hexVal h2, hexVal h3, hexVal h4 with
              | some a, some b, some c3, some d =>
                some (Char.ofNat (((a * 16 + b) * 16 + c3) * 16 + d), rest)
              | _, _, _, _ => none
            | _ => none
          else none
        match decoded with
        | some (ch, rest) =>
          match parseStrBody fuel rest with
          | some (tail, rest') => some (ch :: tail, rest')
          | _ => none
        | _ => none
    else if c.toNat < 32 then none
    else
      match parseStrBody fuel cs with
      | some (tail, rest) => some (c :: tail, rest)
      | _ => none

/-- The natural number denoted by a list of decimal digits. -/
def digitsToNat (digits : List Char) : Nat :=
  digits.foldl (fun acc c => acc * 10 + (c.toNat - 48)) 0

/-- The exact decimal value of a JSON number literal with sign `neg`,
integer part `intPart`, fraction digits `fracDigits` and exponent
`(expNeg, expVal)`. -/
def jsonNumVal (neg : Bool) (intPart : Nat) (fracDigits : List Char)
    (expNeg : Bool) (expVal : Nat) : Rat :=
  let mantissa : Rat :=
    (intPart : Rat) + (digitsToNat fracDigits : Rat) / ((10 : Rat) ^ fracDigits.length)
  let scaled : Rat :=
    if expNeg then mantissa / (10 : Rat) ^ expVal else mantissa * (10 : Rat) ^ expVal
  if neg then -scaled else scaled

/-- Parse a JSON number literal
(`-?(0|[1-9][0-9]*)(\.[0-9]+)?([eE][+-]?[0-9]+)?`): optionally signed,
no leading zeros, optional fraction (at least one digit), optional
exponent — exactly the grammar `json.loads` applies after its
`NaN`/`Infinity` constant scan. -/
def parseNum (cs : List Char) : Option (Rat × List Char) :=
  let (neg, cs1) :=
    match cs with
    | '-' :: rest => (true, rest)
    | _ => (false, cs)
  let intDigits := cs1.takeWhile Char.isDigit
  let rest1 := cs1.dropWhile Char.isDigit
  if intDigits.isEmpty then none
  else if intDigits.length > 1 && intDigits.headD '0' = '0' then none
  else
    let fracRes : Option (List Char × List Char) :=
      match rest1 with
      | '.' :: r =>
        let fd := r.takeWhile Char.isDigit
        if fd.isEmpty then none else some (fd, r.dropWhile Char.isDigit)
      | _ => some ([], rest1)
    match fracRes with
    | some (fracDigits, rest2) =>
      let expRes : Option (Bool × Nat × List Char) :=
        match rest2 with
        | c :: r =>
          if c = 'e' || c = 'E' then
            let (expNeg, r1) :=
              match r with
              | '+' :: rr => (false, rr)
              | '-' :: rr => (true, rr)
              | _ => (false, r)
            let ed := r1.takeWhile Char.isDigit
            if ed.isEmpty then none
            else some (expNeg, digitsToNat ed, r1.dropWhile Char.isDigit)
          else some (false, 0, rest2)
        | [] => some (false, 0, rest2)
      match expRes with
      | some (expNeg, expVal, rest3) =>
        some (jsonNumVal neg (digitsToNat intDigits) fracDigits expNeg expVal, rest3)
      | _ => none
    | _ => none

mutual

/-- Parse one JSON value from the front of the input. -/
def parseValue : Nat → List Char → Option (JsonVal × List Char)
  | 0, _ => none
  | fuel + 1, cs =>
    match skipWs cs with
    | [] => none
    | c :: rest =>
      if c = '"' then
        match parseStrBody (rest.length + 1) rest with
        | some (body, rest') => some (JsonVal.str (String.mk body), rest')
        | _ => none
      else if c = '\x7b' then parseObjFields fuel (skipWs rest) true
      else if c = '[' then parseArrItems fuel (skipWs rest) true
      else if c = 't' then
        match rest with
        | 'r' :: 'u' :: 'e' :: rest' => some (JsonVal.bool true, rest')
        | _ => none
      else if c = 'f' then
        match rest with
        | 'a' :: 'l' :: 's' :: 'e' :: rest' => some (JsonVal.bool false, rest')
        | _ => none
      else if c = 'n' then
        match rest with
        | 'u' :: 'l' :: 'l' :: rest' => some (JsonVal.null, rest')
        | _ => none
      else if c = 'N' then
        match rest with
        | 'a' :: 'N' :: rest' => some (JsonVal.nan, rest')
        | _ => none
      else if c = 'I' then
        match rest with
        | 'n' :: 'f' :: 'i' :: 'n' :: 'i' :: 't' :: 'y' :: rest' =>
          some (JsonVal.infinity false, rest')
        | _ => none
      else if c = '-' then
        match rest with
        | 'I' :: 'n' :: 'f' :: 'i' :: 'n' :: 'i' :: 't' :: 'y' :: rest' =>
          some (JsonVal.infinity true, rest')
        | _ =>
          match parseNum (c :: rest) with
          | some (q, rest') => some (JsonVal.num q, rest')
          | _ => none
      else
        match parseNum (c :: rest) with
        | some (q, rest') => some (JsonVal.num q, rest')
        | _ => none

/-- Parse the members of a JSON object after `{` (whitespace skipped);
`first` is true before the first member. -/
def parseObjFields : Nat → List Char → Bool → Option (JsonVal × List Char)
  | 0, _, _ => none
  | fuel + 1, cs, first =>
    match cs with
    | '\x7d' :: rest =>
      if first then some (JsonVal.obj [], rest) else none
    | _ =>
      match parseObjMore fuel cs with
      | some (fields, rest) => some (JsonVal.obj fields, rest)
      | _ => none

/-- Parse one `"key": value` member and then the rest of the object. -/
def parseObjMore : Nat → List Char → Option (List (String × JsonVal) × List Char)
  | 0, _ => none
  | fuel + 1, cs =>
    match skipWs cs with
    | '"' :: rest =>
      match parseStrBody (rest.length + 1) rest with
      | some (key, rest1) =>
        match skipWs rest1 with
        | ':' :: rest2 =>
          match parseValue fuel rest2 with
          | some (v, rest3) =>
            match skipWs rest3 with
            | ',' :: rest4 =>
              match parseObjMore fuel rest4 with
              | some (fields, rest5) => some ((String.mk key, v) :: fields, rest5)
              | _ => none
            | '\x7d' :: rest4 => some ([(String.mk key, v)], rest4)
            | _ => none
          | _ => none
        | _ => none
      | _ => none
    | _ => none

/-- Parse the items of a JSON array after `[` (whitespace skipped). -/
def parseArrItems : Nat → List Char → Bool → Option (JsonVal × List Char)
  | 0, _, _ => none
  | fuel + 1, cs, first =>
    match cs with
    | ']' :: rest =>
      if first then some (JsonVal.arr [], rest) else none
    | _ =>
      match parseArrMore fuel cs with
      | some (xs, rest) => some (JsonVal.arr xs, rest)
      | _ => none

/-- Parse one array item and then the rest of the array. -/
def parseArrMore : Nat → List Char → Option (List JsonVal × List Char)
  | 0, _ => none
  | fuel + 1, cs =>
    match parseValue fuel cs with
    | some (v, rest) =>
      match skipWs rest with
      | ',' :: rest1 =>
        match parseArrMore fuel rest1 with
        | some (xs, rest2) => some (v :: xs, rest2)
        | _ => none
      | ']' :: rest1 => some ([v], rest1)
      | _ => none
    | _ => none

end

/-- `json.loads(s)`: parse a complete JSON document; `none` models the
exception raised on malformed input or trailing garbage. -/
def jsonParse (s : String) : Option JsonVal :=
  match parseValue (s.data.length + 1) s.data with
  | some (v, rest) => if (skipWs rest).isEmpty then some v else none
  | _ => none

/-- Python `dict.get(k)` on an object: last binding wins for duplicate
keys, as in `json.loads`. Returns `none` for a missing key. -/
def jGet (fields : List (String × JsonVal)) (k : String) : Option JsonVal :=
  match fields.reverse.find? (fun f => f.1 = k) with
  | some f => some f.2
  | _ => none

/-- Python truthiness of a JSON-decoded value (`NaN` and the infinities
are truthy; a number is falsy exactly when it is zero — Python tests the
IEEE double, but no path of `truncate_output` observes the difference). -/
def jTruthy : JsonVal → Bool
  | JsonVal.null => false
  | JsonVal.bool b => b
  | JsonVal.num q => q ≠ 0
  | JsonVal.nan => true
  | JsonVal.infinity _ => true
  | JsonVal.str s => !s.data.isEmpty
  | JsonVal.arr xs => !xs.isEmpty
  | JsonVal.obj fields => !fields.isEmpty

/-! ## `agent.truncate_output` -/

/-- The JSONL detection prefix `'{"type":'` of `truncate_output`. -/
def jsonlPrefix : String := "\x7b\"type\":"

/-- The JSONL detection infix `'\n{"type":'` of `truncate_output`. -/
def jsonlNlPrefix : String := "\n\x7b\"type\":"

/-- The default truncation suffix of `truncate_output`. -/
def truncSuffix : String := "... (truncated)"

/-- The JSONL branch condition of `truncate_output`:
`output.startswith('{"type":') and '\n{"type":' in output`. -/
def detectJsonl (output : String) : Bool :=
  strStartsWith output jsonlPrefix && strContains output jsonlNlPrefix

/-- What the loop body of `truncate_output` extracts from one parsed line:
for a `result` record, its `result` text when that is a nonempty string;
for an `assistant` record with a truthy `message`, the `text` of the first
`content` entry when that is a nonempty string. `none` covers every path
where the Python body either falls through or raises into the bare
`except` (non-object line, missing/foreign `type`, falsy or non-string
text, non-dict `message`, non-list or empty `content`). -/
def lineExtract : JsonVal → Option String
  | JsonVal.obj fields =>
    match jGet fields "type" with
    | some (JsonVal.str ty) =>
      if ty = "result" then
        match (jGet fields "result").getD (JsonVal.str "") with
        | JsonVal.str s => if s.data.isEmpty then none else some s
        | _ => none
      else if ty = "assistant" then
        match jGet fields "message" with
        | some m =>
          if jTruthy m then
            match m with
            | JsonVal.obj mf =>
              match (jGet mf "content").getD (JsonVal.arr []) with
              | JsonVal.arr (c0 :: _) =>
                match c0 with
                | JsonVal.obj cf =>
                  match (jGet cf "text").getD (JsonVal.str "") with
                  | JsonVal.str t => if t.data.isEmpty then none else some t
                  | _ => none
                | _ => none
              | _ => none
            | _ => none
          else none
        | _ => none
      else none
    | _ => none
  | _ => none

/-- Parse one line and run the extraction on it. -/
def lineExtractStr (line : String) : Option String :=
  (jsonParse line).bind lineExtract

/-- The `for line in reversed(lines)` scan of `truncate_output`: the first
line from the end that yields an embedded text. -/
def scanLines (lines : List String) : Option String :=
  lines.reverse.findSome? lineExtractStr

/-- The plain-text part of `truncate_output`: return short input unchanged,
else cut at a line break in a 50-character lookback window before the cut
point, else at a space in a 20-character window, else hard-cut, always
appending the suffix. -/
def plainTruncate (output : String) (max_length : Nat) (suffix : String) : String :=
  if output.length ≤ max_length then output
  else
    let truncate_at : Int := (max_length : Int) - (suffix.length : Int)
    let newline_pos := pyRfindChar output '\n' (truncate_at - 50) truncate_at
    if newline_pos > 0 then strTake output newline_pos.toNat ++ suffix
    else
      let space_pos := pyRfindChar output ' ' (truncate_at - 20) truncate_at
      if space_pos > 0 then strTake output space_pos.toNat ++ suffix
      else strTake output (pySliceEnd output.length truncate_at) ++ suffix

/-- `truncate_output` with explicit recursion fuel. The source recurses on
a text decoded out of a JSON string literal inside one line of `output`,
which is strictly shorter than `output`; the inner length guard records
that variant (its else-branch is unreachable on genuine record streams),
so `output.length + 1` fuel always suffices. -/
def truncAux : Nat → String → Nat → String → String
  | 0, output, max_length, suffix => plainTruncate output max_length suffix
  | fuel + 1, output, max_length, suffix =>
    if detectJsonl output then
      let lines := splitNl (pyStrip output)
      match scanLines lines with
      | some text =>
        if text.length < output.length then truncAux fuel text max_length suffix
        else plainTruncate text max_length suffix
      | _ => "[JSONL output with " ++ toString lines.length ++ " messages]" ++ suffix
    else plainTruncate output max_length suffix

/-- `agent.truncate_output`. -/
def truncate_output (output : String) (max_length : Nat) (suffix : String) : String :=
  truncAux (output.length + 1) output max_length suffix

/-! ## `agent.prompt_claude_code` and its retry wrapper -/

/-- `data_types.RetryCode`. -/
inductive RetryCode
  | CLAUDE_CODE_ERROR
  | TIMEOUT_ERROR
  | EXECUTION_ERROR
  | ERROR_DURING_EXECUTION
  | NONE
  deriving DecidableEq, Repr

/-- `data_types.AgentPromptResponse`. -/
structure AgentPromptResponse where
  output : String
  success : Bool
  session_id : Option String
  retry_code : RetryCode
  deriving DecidableEq, Repr

/-- One line of the agent's JSONL output file, with the fields
`prompt_claude_code` reads off the parsed record (absent keys already
replaced by the `dict.get` defaults used there). -/
structure JsonlMessage where
  type : String
  msg_session_id : Option String
  is_error : Bool
  subtype : String
  result : String
  deriving DecidableEq, Repr

/-- The result-message scan of `parse_jsonl_output`: the last record whose
`type` is `"result"`. -/
def result_message_of (messages : List JsonlMessage) : Option JsonlMessage :=
  messages.reverse.find? fun m => m.type = "result"

/-- How the agent subprocess run ended, as observed by
`prompt_claude_code`: a normal exit (with return code, stderr, and the
records streamed to the output file), a `TimeoutExpired`, or any other
exception. -/
inductive ProcOutcome
  | exited (returncode : Int) (stderr : String) (messages : List JsonlMessage)
  | timeoutExpired
  | raised (msg : String)

/-- Environment of one `prompt_claude_code` call: the result of
`check_claude_installed` (an error string when the CLI is missing) and the
subprocess outcome. -/
structure ExecEnv where
  claude_install_error : Option String
  outcome : ProcOutcome

/-- `prompt_claude_code`: every return path of `agent.py:220-325`. -/
def prompt_claude_code (env : ExecEnv) : AgentPromptResponse :=
  match env.claude_install_error with
  | some error_msg =>
    { output := error_msg, success := false, session_id := none
      retry_code := RetryCode.NONE }
  | _ =>
    match env.outcome with
    | ProcOutcome.exited returncode stderr messages =>
      if returncode = 0 then
        match result_message_of messages with
        | some result_message =>
          if result_message.subtype = "error_during_execution" then
            { output := "Error during execution: Agent encountered an error"
              success := false, session_id := result_message.msg_session_id
              retry_code := RetryCode.ERROR_DURING_EXECUTION }
          else
            let result_text := result_message.result
            let result_text :=
              if result_message.is_error && result_text.length > 1000 then
                truncate_output result_text 800 truncSuffix
              else result_text
            { output := result_text, success := !result_message.is_error
              session_id := result_message.msg_session_id
              retry_code := RetryCode.NONE }
        | _ =>
          { output :=
              truncate_output "No result message found in Claude Code output" 800
                truncSuffix
            success := false, session_id := none, retry_code := RetryCode.NONE }
      else
        let stderr_msg := pyStrip stderr
        let error_msg :=
          if !stderr_msg.data.isEmpty then "Claude Code error: " ++ stderr_msg
          else "Command failed with exit code " ++ toString returncode
        { output := truncate_output error_msg 800 truncSuffix, success := false
          session_id := none, retry_code := RetryCode.CLAUDE_CODE_ERROR }
    | ProcOutcome.timeoutExpired =>
      { output := "Error: Claude Code command timed out", success := false
        session_id := none, retry_code := RetryCode.TIMEOUT_ERROR }
    | ProcOutcome.raised msg =>
      { output := "Error executing Claude Code: " ++ msg, success := false
        session_id := none, retry_code := RetryCode.EXECUTION_ERROR }

/-- The retryable-code list checked by `prompt_claude_code_with_retry`. -/
def retryableCodes : List RetryCode :=
  [RetryCode.CLAUDE_CODE_ERROR, RetryCode.TIMEOUT_ERROR,
   RetryCode.EXECUTION_ERROR, RetryCode.ERROR_DURING_EXECUTION]

/-- The `while len(retry_delays) < max_retries` extension loop, which runs
exactly `max_retries - len` times, each time appending the last delay plus
2. (On an empty list the source would raise an `IndexError`; the `getD 0`
default is unreachable from the non-empty default schedule.) -/
def extendDelaysAux : Nat → List Int → List Int
  | 0, ds => ds
  | k + 1, ds => extendDelaysAux k (ds ++ [ds.getLast?.getD 0 + 2])

/-- The retry-delay schedule after extension. -/
def extendDelays (ds : List Int) (max_retries : Nat) : List Int :=
  extendDelaysAux (max_retries - ds.length) ds

/-- The observable outcome of one `prompt_claude_code_with_retry` run:
the returned response, how many agent invocations happened, and the
sequence of back-off sleeps performed (in order). -/
structure RetryRun where
  response : Option AgentPromptResponse
  calls : Nat
  sleeps : List Int
  deriving DecidableEq, Repr

/-- The `for attempt in range(max_retries + 1)` loop of
`prompt_claude_code_with_retry`. `f` gives the response of each attempt;
`fuel` is the number of loop iterations left (`max_retries + 1 - attempt`);
falling off the loop returns `last`. -/
def retryAux (f : Nat → AgentPromptResponse) (max_retries : Nat) (delays : List Int) :
    Nat → Nat → List Int → Option AgentPromptResponse → RetryRun
  | 0, attempt, sleeps, last => ⟨last, attempt, sleeps⟩
  | fuel + 1, attempt, sleeps, _last =>
    let sleeps := if attempt > 0 then sleeps ++ [delays.getD (attempt - 1) 0] else sleeps
    let r := f attempt
    if r.success = true ∨ r.retry_code = RetryCode.NONE then ⟨some r, attempt + 1, sleeps⟩
    else if r.retry_code ∈ retryableCodes then
      if attempt < max_retries then retryAux f max_retries delays fuel (attempt + 1) sleeps (some r)
      else ⟨some r, attempt + 1, sleeps⟩
    else retryAux f max_retries delays fuel (attempt + 1) sleeps (some r)

/-- `prompt_claude_code_with_retry`: `f` models the successive
`prompt_claude_code` responses; `retry_delays_arg` is the optional
`retry_delays` argument (`none` selects the `[1, 3, 5]` default). -/
def prompt_claude_code_with_retry (f : Nat → AgentPromptResponse)
    (max_retries : Nat) (retry_delays_arg : Option (List Int)) : RetryRun :=
  let retry_delays :=
    match retry_delays_arg with
    | some ds => ds
    | _ => [1, 3, 5]
  let retry_delays := extendDelays retry_delays max_retries
  retryAux f max_retries retry_delays (max_retries + 1) 0 [] none

/-! ## Auxiliary definitions used only to state the theorems -/

/-- A response that `prompt_claude_code_with_retry` retries on: a failure
carrying one of the retryable codes. -/
def isRetryableFailure (r : AgentPromptResponse) : Prop :=
  r.success = false ∧ r.retry_code ∈ retryableCodes

instance (r : AgentPromptResponse) : Decidable (isRetryableFailure r) := by
  unfold isRetryableFailure; infer_instance

/-- The back-off sleeps performed by the retry loop while it iterates from
attempt number `attempt` through attempt number `attempt + k`: before every
attempt with a positive number it sleeps the delay at the previous index. -/
def sleepSlice (ds : List Int) : Nat → Nat → List Int
  | attempt, 0 => if attempt > 0 then [ds.getD (attempt - 1) 0] else []
  | attempt, k + 1 =>
    (if attempt > 0 then [ds.getD (attempt - 1) 0] else []) ++ sleepSlice ds (attempt + 1) k

/-- The event trace carried by an iteration outcome. -/
def iterEvents : IterOut → List LoopEvent
  | IterOut.exit _ _ s => s.events
  | IterOut.next s => s.events

/-- Whether a parse produced a JSON object (a "structured record"). -/
def isObjVal : Option JsonVal → Bool
  | some (JsonVal.obj _) => true
  | _ => false

/-- Following the specification's wording (not the code): a non-empty
line-delimited stream in which every line is a structured (JSON object)
record. Used to state what the truncation claim promises. -/
def specIsRecordStream (s : String) : Bool :=
  !(splitNl s).isEmpty && (splitNl s).all fun line => isObjVal (jsonParse line)

/-- Following the specification's wording (not the code): the text of the
terminal `result` record of a record stream — the `result` string of the
last line when that line is a record tagged `"result"`. -/
def specTerminalResultText (s : String) : Option String :=
  match (splitNl s).getLast? with
  | some line =>
    match jsonParse line with
    | some (JsonVal.obj fields) =>
      match jGet fields "type" with
      | some (JsonVal.str ty) =>
        if ty = "result" then
          match jGet fields "result" with
          | some (JsonVal.str r) => some r
          | _ => none
        else none
      | _ => none
    | _ => none
  | _ => none

/-- The deterministic slot index probing starts from. -/
def portBaseIndex (pyHash : String → Int) (adw_id : String) : Nat :=
  (get_ports_for_adw pyHash adw_id).1 - 9100

/-! # Theorems -/

/-! ## Port allocation (claims C3 and C4) -/

theorem portBaseIndex_lt (pyHash : String → Int) (adw_id : String) :
    portBaseIndex pyHash adw_id < 15 := by
  unfold portBaseIndex get_ports_for_adw
  rcases h : int36 (String.mk ((adw_id.data.take 8).filter pyIsAlnum)) with _ | n <;>
    simp only [h]
  · have h1 : 0 ≤ (pyHash adw_id).emod 15 := Int.emod_nonneg _ (by norm_num)
    have h2 : (pyHash adw_id).emod 15 < 15 := Int.emod_lt_of_pos _ (by norm_num)
    omega
  · have : n % 15 < 15 := Nat.mod_lt _ (by norm_num)
    omega

/-- C3 (amended): for every id whose first 8 characters contain at least
one (ASCII) alphanumeric character — i.e., whose filtered prefix has a
base-36 interpretation `n` — the assigned ports are
`(9100 + n % 15, 9200 + n % 15)`, independently of the hash fallback;
and for every id whatsoever the frontend port is the backend port
plus 100. Determinism across repeated calls holds because
`get_ports_for_adw` is a pure function of `(pyHash, adw_id)`. -/
theorem get_ports_for_adw_base36 (pyHash : String → Int) (adw_id : String) :
    (∀ n, int36 (String.mk ((adw_id.data.take 8).filter pyIsAlnum)) = some n →
      get_ports_for_adw pyHash adw_id = (9100 + n % 15, 9200 + n % 15)) ∧
    (get_ports_for_adw pyHash adw_id).2 = (get_ports_for_adw pyHash adw_id).1 + 100 := by
  constructor
  · intro n h
    simp [get_ports_for_adw, h]
  · unfold get_ports_for_adw
    rcases h : int36 (String.mk ((adw_id.data.take 8).filter pyIsAlnum)) with _ | n <;>
      simp only [h] <;> omega

/-- C3 witness: the spec's own scenario, run_id `"a1b2c3d4"`:
`base36("a1b2c3d4") = 786487474696 ≡ 1 (mod 15)`, so the ports are
`(9101, 9201)`. -/
theorem get_ports_for_adw_base36_witness :
    int36 "a1b2c3d4" = some 786487474696 ∧
    get_ports_for_adw (fun _ => 37) "a1b2c3d4" = (9100 + 786487474696 % 15, 9200 + 786487474696 % 15) ∧
    get_ports_for_adw (fun _ => 37) "a1b2c3d4" = (9101, 9201) := by
  refine ⟨by decide, ?_, by decide⟩
  exact (get_ports_for_adw_base36 (fun _ => 37) "a1b2c3d4").1 786487474696 (by decide)

/-- C3 counterexample: on an id whose first 8 characters contain no
alphanumeric character (`int("", 36)` raises), the source falls back to
`hash(adw_id) % 15`, so the result depends on the process hash seed and is
not the claimed base-36 value: two hash environments yield two different
ports for the same id. -/
theorem get_ports_for_adw_hash_fallback :
    get_ports_for_adw (fun _ => 0) "!!!" = (9100, 9200) ∧
    get_ports_for_adw (fun _ => 7) "!!!" = (9107, 9207) := by
  constructor <;> decide

/-- C4: probing starts at the deterministic slot index, visits all 15
slots exactly once in wraparound (mod 15) order, returns the first slot
whose two ports are both bindable, and raises the fatal `RuntimeError`
exactly when no slot has both ports bindable. -/
theorem find_next_available_ports_exhaustive (pyHash : String → Int)
    (avail : Nat → Bool) (adw_id : String) :
    (probeOrder (portBaseIndex pyHash adw_id)).Nodup ∧
    (∀ i, i < 15 → i ∈ probeOrder (portBaseIndex pyHash adw_id)) ∧
    (probeOrder (portBaseIndex pyHash adw_id)).head? =
      some (portBaseIndex pyHash adw_id) ∧
    (find_next_available_ports pyHash avail adw_id 15 =
      match (probeOrder (portBaseIndex pyHash adw_id)).find?
          (fun i => avail (9100 + i) && avail (9200 + i)) with
      | some i => Except.ok (9100 + i, 9200 + i)
      | _ => Except.error "No available ports in the allocated range") ∧
    (find_next_available_ports pyHash avail adw_id 15 =
        Except.error "No available ports in the allocated range" ↔
      ∀ i, i < 15 → ¬(avail (9100 + i) = true ∧ avail (9200 + i) = true)) := by
  have hb : portBaseIndex pyHash adw_id < 15 := portBaseIndex_lt pyHash adw_id
  have hall : ∀ b, b < 15 → (probeOrder b).Nodup ∧
      (∀ i, i < 15 → i ∈ probeOrder b) ∧ (probeOrder b).head? = some b := by decide
  obtain ⟨hnd, hmem, hhd⟩ := hall _ hb
  have hfind : find_next_available_ports pyHash avail adw_id 15 =
      match (probeOrder (portBaseIndex pyHash adw_id)).find?
          (fun i => avail (9100 + i) && avail (9200 + i)) with
      | some i => Except.ok (9100 + i, 9200 + i)
      | _ => Except.error "No available ports in the allocated range" := by
    simp only [find_next_available_ports, probeOrder]
    rw [show (get_ports_for_adw pyHash adw_id).1 - 9100 = portBaseIndex pyHash adw_id
      from rfl]
    rw [List.find?_map]
    simp only [Function.comp_def]
    rcases h : (List.range 15).find? (fun offset =>
        avail (9100 + (portBaseIndex pyHash adw_id + offset) % 15) &&
        avail (9200 + (portBaseIndex pyHash adw_id + offset) % 15)) with _ | o <;>
      rfl
  refine ⟨hnd, hmem, hhd, hfind, ?_⟩
  rw [hfind]
  constructor
  · intro herr i hi hav
    rcases hfq : (probeOrder (portBaseIndex pyHash adw_id)).find?
        (fun j => avail (9100 + j) && avail (9200 + j)) with _ | j
    · have := List.find?_eq_none.mp hfq i (hmem i hi)
      simp [hav.1, hav.2] at this
    · rw [hfq] at herr
      exact absurd herr (by simp)
  · intro hnone
    have hfq : (probeOrder (portBaseIndex pyHash adw_id)).find?
        (fun j => avail (9100 + j) && avail (9200 + j)) = none := by
      apply List.find?_eq_none.mpr
      intro j hj
      have hj15 : j < 15 := by
        unfold probeOrder at hj
        obtain ⟨o, _, rfl⟩ := List.mem_map.mp hj
        exact Nat.mod_lt _ (by norm_num)
      have := hnone j hj15
      intro hcontra
      rw [Bool.and_eq_true] at hcontra
      exact this hcontra
    rw [hfq]

/-- C4 witness: with ports `9105`/`9205` (slot 5) the only bindable pair
and id `"a1b2c3d4"` (deterministic slot 1), probing wraps to slot 5 and
returns it; with no bindable pair at all, the fatal error is raised. -/
theorem find_next_available_ports_exhaustive_witness :
    find_next_available_ports (fun _ => 0) (fun p => p = 9105 || p = 9205) "a1b2c3d4" 15 =
      Except.ok (9105, 9205) ∧
    find_next_available_ports (fun _ => 0) (fun _ => false) "a1b2c3d4" 15 =
      Except.error "No available ports in the allocated range" := by
  constructor
  · have h := (find_next_available_ports_exhaustive (fun _ => 0)
      (fun p => p = 9105 || p = 9205) "a1b2c3d4").2.2.2.1
    rw [h]; rfl
  · have h := (find_next_available_ports_exhaustive (fun _ => 0)
      (fun _ => false) "a1b2c3d4").2.2.2.2
    exact h.mpr (by decide)

/-! ## Checkpoint commits (claim C10) -/

theorem loopIter_events_prefix (env : LoopEnv) (s : LoopState) :
    ∃ rest, iterEvents (loopIter env s) =
      s.events ++ LoopEvent.build (s.n + 1) ::
        LoopEvent.commit (s.n + 1)
          (commit_changes (env.git (s.n + 1)) (buildCommitMsg env (s.n + 1))).2 :: rest := by
  unfold loopIter
  cases hskip : env.skip_tests
  · simp only [Bool.false_eq_true, if_false]
    by_cases hf : (run_tests (env.tests (s.n + 1))).2.2 = 0
    · rw [if_pos hf]
      exact ⟨[LoopEvent.test (s.n + 1) (run_tests (env.tests (s.n + 1))).2.1
        (run_tests (env.tests (s.n + 1))).2.2], by simp [iterEvents]⟩
    · rw [if_neg hf]
      by_cases hcap : env.max_loops ≠ 0 ∧ s.n + 1 ≥ env.max_loops
      · rw [if_pos hcap]
        exact ⟨[LoopEvent.test (s.n + 1) (run_tests (env.tests (s.n + 1))).2.1
          (run_tests (env.tests (s.n + 1))).2.2], by simp [iterEvents]⟩
      · rw [if_neg hcap]
        refine ⟨[LoopEvent.test (s.n + 1) (run_tests (env.tests (s.n + 1))).2.1
            (run_tests (env.tests (s.n + 1))).2.2,
          LoopEvent.writeFailures (s.n + 1)
            ((run_tests (env.tests (s.n + 1))).1.filter fun t => !t.passed),
          LoopEvent.replan (s.n + 1), LoopEvent.deleteFailures (s.n + 1)], ?_⟩
        simp [iterEvents]
  · simp only [if_true]
    exact ⟨[], by simp [iterEvents]⟩

/-- C10: when the working tree is clean (`git status --porcelain` prints
nothing), `commit_changes` returns success without running `git add` or
`git commit`; consequently the per-iteration checkpoint of the
backpressure loop records only the status probe — no commit — for that
iteration. -/
theorem commit_changes_clean_noop :
    (∀ (env : GitEnv) (message : String), pyStrip env.status_stdout = "" →
      commit_changes env message = ((true, none), [GitCmd.statusPorcelain])) ∧
    (∀ (env : LoopEnv) (s : LoopState),
      pyStrip (env.git (s.n + 1)).status_stdout = "" →
      ∃ rest, iterEvents (loopIter env s) =
        s.events ++ LoopEvent.build (s.n + 1) ::
          LoopEvent.commit (s.n + 1) [GitCmd.statusPorcelain] :: rest) := by
  have base : ∀ (env : GitEnv) (message : String), pyStrip env.status_stdout = "" →
      commit_changes env message = ((true, none), [GitCmd.statusPorcelain]) := by
    intro env message h
    unfold commit_changes
    rw [h]
    simp
  refine ⟨base, ?_⟩
  intro env s h
  obtain ⟨rest, hrest⟩ := loopIter_events_prefix env s
  rw [base (env.git (s.n + 1)) (buildCommitMsg env (s.n + 1)) h] at hrest
  exact ⟨rest, hrest⟩

/-- C10 witness: a concrete clean-tree environment — only `git status` is
run, no `git add`, no `git commit`, and the loop iteration's trace shows
it. -/
theorem commit_changes_clean_noop_witness :
    commit_changes ⟨" \n", 0, "", 0, ""⟩ "feat: x" =
      ((true, none), [GitCmd.statusPorcelain]) ∧
    (∃ rest,
      iterEvents (loopIter
        ⟨fun _ => (true, none), fun _ => ⟨" \n", 0, "", 0, ""⟩,
         fun _ => TestPhaseOutcome.parsed [], fun _ => (true, none),
         false, 0, "1", "adw1"⟩ ⟨0, [], false⟩) =
        [] ++ LoopEvent.build 1 :: LoopEvent.commit 1 [GitCmd.statusPorcelain] :: rest) := by
  constructor
  · exact commit_changes_clean_noop.1 ⟨" \n", 0, "", 0, ""⟩ "feat: x" (by decide)
  · exact commit_changes_clean_noop.2
      ⟨fun _ => (true, none), fun _ => ⟨" \n", 0, "", 0, ""⟩,
       fun _ => TestPhaseOutcome.parsed [], fun _ => (true, none),
       false, 0, "1", "adw1"⟩ ⟨0, [], false⟩ (by decide)

/-! ## Test-phase failure handling (claim C7) -/

/-- C7: a failed test invocation or unparseable test output makes
`run_tests` return `([], 0, 0)`, and an iteration of the backpressure
loop that observes such an outcome sees `failures = 0` and exits in the
all-tests-passed (DONE) state. -/
theorem run_tests_unparseable_passes :
    (∀ msg, run_tests (TestPhaseOutcome.execFailed msg) = ([], 0, 0)) ∧
    run_tests TestPhaseOutcome.parseFailed = ([], 0, 0) ∧
    (∀ (env : LoopEnv) (s : LoopState), env.skip_tests = false →
      (env.tests (s.n + 1) = TestPhaseOutcome.parseFailed ∨
        ∃ msg, env.tests (s.n + 1) = TestPhaseOutcome.execFailed msg) →
      loopIter env s = IterOut.exit LoopExit.done true
        ⟨s.n + 1,
         s.events ++ [LoopEvent.build (s.n + 1),
           LoopEvent.commit (s.n + 1)
             (commit_changes (env.git (s.n + 1)) (buildCommitMsg env (s.n + 1))).2,
           LoopEvent.test (s.n + 1) 0 0],
         s.filePresent⟩) := by
  refine ⟨fun msg => rfl, rfl, ?_⟩
  intro env s hskip h
  have hrt : run_tests (env.tests (s.n + 1)) = ([], 0, 0) := by
    rcases h with h | ⟨msg, h⟩ <;> rw [h] <;> rfl
  simp [loopIter, hskip, hrt]

/-- C7 witness: a concrete loop state whose test phase output fails to
parse — the iteration exits DONE with a `0 passed / 0 failed` record. -/
theorem run_tests_unparseable_passes_witness :
    loopIter
      ⟨fun _ => (true, none), fun _ => ⟨"M x", 0, "", 0, ""⟩,
       fun _ => TestPhaseOutcome.parseFailed, fun _ => (true, none),
       false, 0, "1", "adw1"⟩ ⟨0, [], false⟩ =
      IterOut.exit LoopExit.done true
        ⟨1,
         [] ++ [LoopEvent.build 1,
           LoopEvent.commit 1
             (commit_changes ⟨"M x", 0, "", 0, ""⟩ (buildCommitMsg
               ⟨fun _ => (true, none), fun _ => ⟨"M x", 0, "", 0, ""⟩,
                fun _ => TestPhaseOutcome.parseFailed, fun _ => (true, none),
                false, 0, "1", "adw1"⟩ 1)).2,
           LoopEvent.test 1 0 0],
         false⟩ :=
  run_tests_unparseable_passes.2.2
    ⟨fun _ => (true, none), fun _ => ⟨"M x", 0, "", 0, ""⟩,
     fun _ => TestPhaseOutcome.parseFailed, fun _ => (true, none),
     false, 0, "1", "adw1"⟩ ⟨0, [], false⟩ rfl (Or.inl rfl)

/-! ## Success responses carry NONE (claim C8) -/

/-- C8: every response `prompt_claude_code` returns with `success = true`
carries retry code `NONE` — equivalently, a non-`NONE` retry code is only
ever paired with `success = false`, on every return path. -/
theorem prompt_claude_code_success_none (env : ExecEnv)
    (h : (prompt_claude_code env).success = true) :
    (prompt_claude_code env).retry_code = RetryCode.NONE := by
  rcases env with ⟨ie, oc⟩
  rcases ie with _ | e
  · rcases oc with ⟨rc, stderr, messages⟩ | _ | m
    · simp only [prompt_claude_code] at h ⊢
      by_cases hrc : rc = 0
      · rw [if_pos hrc] at h ⊢
        rcases hm : result_message_of messages with _ | m
        · rw [hm] at h
        · rw [hm] at h
          by_cases hsub : m.subtype = "error_during_execution"
          · simp [hsub] at h
          · simp [hsub]
      · rw [if_neg hrc] at h
        simp at h
    · simp [prompt_claude_code] at h
    · simp [prompt_claude_code] at h
  · simp [prompt_claude_code] at h

/-- C8 witness: a successful run (exit 0, terminal non-error result
record) yields `success = true` with code `NONE`. -/
theorem prompt_claude_code_success_none_witness :
    (prompt_claude_code ⟨none, ProcOutcome.exited 0 ""
        [⟨"result", some "s1", false, "success", "done"⟩]⟩).success = true ∧
    (prompt_claude_code ⟨none, ProcOutcome.exited 0 ""
        [⟨"result", some "s1", false, "success", "done"⟩]⟩).retry_code =
      RetryCode.NONE :=
  ⟨rfl, prompt_claude_code_success_none _ rfl⟩

/-! ## The retry wrapper (claims C2 and C9) -/

theorem retryable_ne_none : ∀ c ∈ retryableCodes, c ≠ RetryCode.NONE := by decide

theorem retryAux_step_stop (f : Nat → AgentPromptResponse) (maxr : Nat) (ds : List Int)
    (fuel attempt : Nat) (sleeps : List Int) (last : Option AgentPromptResponse)
    (h : (f attempt).success = true ∨ (f attempt).retry_code = RetryCode.NONE) :
    retryAux f maxr ds (fuel + 1) attempt sleeps last =
      ⟨some (f attempt), attempt + 1,
       if attempt > 0 then sleeps ++ [ds.getD (attempt - 1) 0] else sleeps⟩ := by
  simp only [retryAux]
  rw [if_pos h]

theorem retryAux_step_retry (f : Nat → AgentPromptResponse) (maxr : Nat) (ds : List Int)
    (fuel attempt : Nat) (sleeps : List Int) (last : Option AgentPromptResponse)
    (hfail : (f attempt).success = false)
    (hmem : (f attempt).retry_code ∈ retryableCodes)
    (hlt : attempt < maxr) :
    retryAux f maxr ds (fuel + 1) attempt sleeps last =
      retryAux f maxr ds fuel (attempt + 1)
        (if attempt > 0 then sleeps ++ [ds.getD (attempt - 1) 0] else sleeps)
        (some (f attempt)) := by
  have hnot : ¬((f attempt).success = true ∨ (f attempt).retry_code = RetryCode.NONE) := by
    rintro (hs | hn)
    · rw [hfail] at hs
      exact Bool.false_ne_true hs
    · rw [hn] at hmem
      exact absurd hmem (by decide)
  simp only [retryAux]
  rw [if_neg hnot, if_pos hmem, if_pos hlt]

theorem retryAux_step_exhaust (f : Nat → AgentPromptResponse) (maxr : Nat) (ds : List Int)
    (fuel attempt : Nat) (sleeps : List Int) (last : Option AgentPromptResponse)
    (hfail : (f attempt).success = false)
    (hmem : (f attempt).retry_code ∈ retryableCodes)
    (hge : ¬attempt < maxr) :
    retryAux f maxr ds (fuel + 1) attempt sleeps last =
      ⟨some (f attempt), attempt + 1,
       if attempt > 0 then sleeps ++ [ds.getD (attempt - 1) 0] else sleeps⟩ := by
  have hnot : ¬((f attempt).success = true ∨ (f attempt).retry_code = RetryCode.NONE) := by
    rintro (hs | hn)
    · rw [hfail] at hs
      exact Bool.false_ne_true hs
    · rw [hn] at hmem
      exact absurd hmem (by decide)
  simp only [retryAux]
  rw [if_neg hnot, if_pos hmem, if_neg hge]

theorem retryAux_reaches (f : Nat → AgentPromptResponse) (maxr : Nat) (ds : List Int) :
    ∀ (k attempt : Nat) (sleeps : List Int) (last : Option AgentPromptResponse),
      attempt + k ≤ maxr →
      (∀ i, attempt ≤ i → i < attempt + k → isRetryableFailure (f i)) →
      ((f (attempt + k)).success = true ∨ (f (attempt + k)).retry_code = RetryCode.NONE) →
      retryAux f maxr ds (maxr + 1 - attempt) attempt sleeps last =
        ⟨some (f (attempt + k)), attempt + k + 1, sleeps ++ sleepSlice ds attempt k⟩ := by
  intro k
  induction k with
  | zero =>
    intro attempt sleeps last hle _ hstop
    have hfuel : maxr + 1 - attempt = (maxr - attempt) + 1 := by omega
    rw [hfuel, retryAux_step_stop f maxr ds _ _ _ _ (by simpa using hstop)]
    simp only [sleepSlice, Nat.add_zero]
    by_cases h0 : attempt > 0 <;> simp [h0]
  | succ k ih =>
    intro attempt sleeps last hle hfail hstop
    have hfuel : maxr + 1 - attempt = (maxr - attempt) + 1 := by omega
    have hf0 : isRetryableFailure (f attempt) := hfail attempt le_rfl (by omega)
    rw [hfuel, retryAux_step_retry f maxr ds _ _ _ _ hf0.1 hf0.2 (by omega)]
    have hfuel2 : maxr - attempt = maxr + 1 - (attempt + 1) := by omega
    have hidx : attempt + (k + 1) = (attempt + 1) + k := by omega
    rw [hidx] at hstop ⊢
    rw [hfuel2, ih (attempt + 1) _ _ (by omega)
      (fun i h1 h2 => hfail i (by omega) (by omega)) hstop]
    simp only [sleepSlice]
    by_cases h0 : attempt > 0 <;> simp [h0, List.append_assoc]

theorem retryAux_allfail (f : Nat → AgentPromptResponse) (maxr : Nat) (ds : List Int) :
    ∀ (k attempt : Nat) (sleeps : List Int) (last : Option AgentPromptResponse),
      attempt + k = maxr →
      (∀ i, i ≤ maxr → isRetryableFailure (f i)) →
      retryAux f maxr ds (maxr + 1 - attempt) attempt sleeps last =
        ⟨some (f maxr), maxr + 1, sleeps ++ sleepSlice ds attempt k⟩ := by
  intro k
  induction k with
  | zero =>
    intro attempt sleeps last heq hfail
    have ha : attempt = maxr := by omega
    have hfuel : maxr + 1 - attempt = 0 + 1 := by omega
    have hf0 := hfail attempt (by omega)
    rw [hfuel, retryAux_step_exhaust f maxr ds _ _ _ _ hf0.1 hf0.2 (by omega)]
    rw [ha]
    simp only [sleepSlice]
    by_cases h0 : maxr > 0 <;> simp [h0]
  | succ k ih =>
    intro attempt sleeps last heq hfail
    have hfuel : maxr + 1 - attempt = (maxr - attempt) + 1 := by omega
    have hf0 := hfail attempt (by omega)
    rw [hfuel, retryAux_step_retry f maxr ds _ _ _ _ hf0.1 hf0.2 (by omega)]
    have hfuel2 : maxr - attempt = maxr + 1 - (attempt + 1) := by omega
    rw [hfuel2, ih (attempt + 1) _ _ (by omega) hfail]
    simp only [sleepSlice]
    by_cases h0 : attempt > 0 <;> simp [h0, List.append_assoc]

/-- C2: with max retries `N` and default delays — (1) if the first `N`
responses are retryable failures and the `(N+1)`-th succeeds, exactly
`N + 1` invocations occur and the success is returned; (2) if, after `k`
retryable failures (`k ≤ N`), an invocation carries retry code `NONE`, no
further invocation occurs and that response is returned regardless of `N`;
(3) if all `N + 1` responses are retryable failures, the last response
observed is returned after `N + 1` invocations. -/
theorem prompt_claude_code_with_retry_policy :
    (∀ (N : Nat) (f : Nat → AgentPromptResponse),
      (∀ i, i < N → isRetryableFailure (f i)) → (f N).success = true →
      (prompt_claude_code_with_retry f N none).response = some (f N) ∧
      (prompt_claude_code_with_retry f N none).calls = N + 1) ∧
    (∀ (N k : Nat) (f : Nat → AgentPromptResponse), k ≤ N →
      (∀ i, i < k → isRetryableFailure (f i)) →
      (f k).retry_code = RetryCode.NONE →
      (prompt_claude_code_with_retry f N none).response = some (f k) ∧
      (prompt_claude_code_with_retry f N none).calls = k + 1) ∧
    (∀ (N : Nat) (f : Nat → AgentPromptResponse),
      (∀ i, i ≤ N → isRetryableFailure (f i)) →
      (prompt_claude_code_with_retry f N none).response = some (f N) ∧
      (prompt_claude_code_with_retry f N none).calls = N + 1) := by
  have hun : ∀ (N : Nat) (f : Nat → AgentPromptResponse),
      prompt_claude_code_with_retry f N none =
        retryAux f N (extendDelays [1, 3, 5] N) (N + 1 - 0) 0 [] none := by
    intro N f
    simp only [prompt_claude_code_with_retry, Nat.sub_zero]
  refine ⟨?_, ?_, ?_⟩
  · intro N f hfail hsucc
    rw [hun]
    rw [retryAux_reaches f N (extendDelays [1, 3, 5] N) N 0 [] none
      (by omega) (fun i h1 h2 => hfail i (by omega)) (Or.inl (by simpa using hsucc))]
    simp
  · intro N k f hk hfail hnone
    rw [hun]
    rw [retryAux_reaches f N (extendDelays [1, 3, 5] N) k 0 [] none
      (by omega) (fun i h1 h2 => hfail i (by omega)) (Or.inr (by simpa using hnone))]
    simp
  · intro N f hfail
    rw [hun]
    rw [retryAux_allfail f N (extendDelays [1, 3, 5] N) N 0 [] none (by omega) hfail]
    simp

/-- C2 witness: with `N = 2` — two timeouts then a success returns the
success after 3 calls; an immediate `NONE` failure returns after 1 call;
three straight timeouts return the last one after 3 calls. -/
theorem prompt_claude_code_with_retry_policy_witness :
    ((prompt_claude_code_with_retry
        (fun i => if i < 2 then ⟨"t", false, none, RetryCode.TIMEOUT_ERROR⟩
                  else ⟨"ok", true, some "s", RetryCode.NONE⟩) 2 none).response =
      some ⟨"ok", true, some "s", RetryCode.NONE⟩ ∧
     (prompt_claude_code_with_retry
        (fun i => if i < 2 then ⟨"t", false, none, RetryCode.TIMEOUT_ERROR⟩
                  else ⟨"ok", true, some "s", RetryCode.NONE⟩) 2 none).calls = 3) ∧
    ((prompt_claude_code_with_retry
        (fun _ => ⟨"bad", false, none, RetryCode.NONE⟩) 2 none).response =
      some ⟨"bad", false, none, RetryCode.NONE⟩ ∧
     (prompt_claude_code_with_retry
        (fun _ => ⟨"bad", false, none, RetryCode.NONE⟩) 2 none).calls = 1) ∧
    ((prompt_claude_code_with_retry
        (fun _ => ⟨"t", false, none, RetryCode.TIMEOUT_ERROR⟩) 2 none).response =
      some ⟨"t", false, none, RetryCode.TIMEOUT_ERROR⟩ ∧
     (prompt_claude_code_with_retry
        (fun _ => ⟨"t", false, none, RetryCode.TIMEOUT_ERROR⟩) 2 none).calls = 3) := by
  refine ⟨?_, ?_, ?_⟩
  · have h := prompt_claude_code_with_retry_policy.1 2
      (fun i => if i < 2 then ⟨"t", false, none, RetryCode.TIMEOUT_ERROR⟩
                else ⟨"ok", true, some "s", RetryCode.NONE⟩)
      (by decide) (by decide)
    simpa using h
  · have h := prompt_claude_code_with_retry_policy.2.1 2 0
      (fun _ => ⟨"bad", false, none, RetryCode.NONE⟩)
      (by omega) (by omega) (by decide)
    simpa using h
  · have h := prompt_claude_code_with_retry_policy.2.2 2
      (fun _ => ⟨"t", false, none, RetryCode.TIMEOUT_ERROR⟩) (by decide)
    simpa using h

theorem extendDelaysAux_closed :
    ∀ (k : Nat) (ds : List Int) (x : Int), ds.getLast? = some x →
      extendDelaysAux k ds =
        ds ++ (List.range k).map (fun j : Nat => x + 2 * ((j : Int) + 1)) := by
  intro k
  induction k with
  | zero =>
    intro ds x _
    simp [extendDelaysAux]
  | succ k ih =>
    intro ds x hx
    have hgd : ds.getLast?.getD 0 = x := by rw [hx]; rfl
    have hnext : (ds ++ [x + 2]).getLast? = some (x + 2) := List.getLast?_concat ds
    simp only [extendDelaysAux, hgd]
    rw [ih (ds ++ [x + 2]) (x + 2) hnext]
    rw [List.append_assoc]
    congr 1
    rw [List.range_succ_eq_map, List.map_cons, List.map_map]
    have hf : ((fun j : Nat => x + 2 * ((j : Int) + 1)) ∘ Nat.succ) =
        (fun j : Nat => (x + 2) + 2 * ((j : Int) + 1)) := by
      funext j
      simp only [Function.comp_apply, Nat.cast_succ]
      ring
    rw [hf]
    simp only [List.singleton_append, Nat.cast_zero]
    congr 1

theorem extendDelays_default (maxr : Nat) :
    extendDelays [1, 3, 5] maxr =
      [1, 3, 5] ++ (List.range (maxr - 3)).map (fun j : Nat => 7 + 2 * (j : Int)) := by
  have h : extendDelays [1, 3, 5] maxr = extendDelaysAux (maxr - 3) [1, 3, 5] := rfl
  have hf : (fun j : Nat => (5 : Int) + 2 * ((j : Int) + 1)) =
      (fun j : Nat => (7 : Int) + 2 * (j : Int)) := by
    funext j
    ring
  rw [h, extendDelaysAux_closed (maxr - 3) [1, 3, 5] 5 rfl, hf]

theorem extendDelays_default_length (maxr : Nat) :
    (extendDelays [1, 3, 5] maxr).length = max 3 maxr := by
  rw [extendDelays_default]
  simp only [List.length_append, List.length_map, List.length_range, List.length_cons,
    List.length_nil]
  omega

theorem sleepSlice_succ (ds : List Int) :
    ∀ (k a : Nat), sleepSlice ds (a + 1) k =
      (List.range (k + 1)).map (fun j => ds.getD (a + j) 0) := by
  intro k
  induction k with
  | zero =>
    intro a
    show (if a + 1 > 0 then [ds.getD (a + 1 - 1) 0] else []) = _
    rw [if_pos (by omega), show List.range 1 = [0] from rfl]
    simp
  | succ k ih =>
    intro a
    show (if a + 1 > 0 then [ds.getD (a + 1 - 1) 0] else []) ++ sleepSlice ds (a + 1 + 1) k = _
    rw [if_pos (by omega), ih (a + 1)]
    conv_rhs => rw [show k + 1 + 1 = (k + 1) + 1 from rfl, List.range_succ_eq_map,
      List.map_cons, List.map_map]
    simp only [List.singleton_append, Nat.add_sub_cancel, Nat.add_zero]
    have hfun : (fun j => ds.getD (a + 1 + j) 0) =
        ((fun j => ds.getD (a + j) 0) ∘ Nat.succ) := by
      funext j
      simp only [Function.comp_apply]
      congr 1
      omega
    rw [hfun]

theorem sleepSlice_zero (ds : List Int) (maxr : Nat) :
    sleepSlice ds 0 maxr = (List.range maxr).map (fun j => ds.getD j 0) := by
  cases maxr with
  | zero => simp [sleepSlice]
  | succ m =>
    have h : sleepSlice ds 0 (m + 1) = sleepSlice ds (0 + 1) m := by
      simp [sleepSlice]
    rw [h, sleepSlice_succ ds m 0]
    simp

theorem range_map_getD_eq_take :
    ∀ (n : Nat) (ds : List Int), n ≤ ds.length →
      (List.range n).map (fun j => ds.getD j 0) = ds.take n := by
  intro n
  induction n with
  | zero => intro ds _; simp
  | succ n ih =>
    intro ds hn
    cases ds with
    | nil => simp at hn
    | cons d tl =>
      rw [List.range_succ_eq_map, List.map_cons, List.map_map]
      have htail : ((fun j => (d :: tl).getD j 0) ∘ Nat.succ) = (fun j => tl.getD j 0) := by
        funext j
        simp
      rw [htail, ih tl (by simpa using hn)]
      simp

/-- C9: the default retry schedule is `[1, 3, 5]`; when max retries
exceeds the number of configured delays the schedule is extended by
repeatedly appending (last delay + 2) until it has max-retries entries
(equivalently, entry `j ≥ 3` is `7 + 2·(j−3)` and the length is
`max 3 maxr`); on a run that exhausts its retries, total attempts equal
max retries + 1 and the wrapper sleeps exactly the first `maxr` delays of
the schedule, in order, one before each retry attempt. -/
theorem retry_backoff_schedule :
    (∀ maxr : Nat, extendDelays [1, 3, 5] maxr =
      [1, 3, 5] ++ (List.range (maxr - 3)).map (fun j : Nat => 7 + 2 * (j : Int))) ∧
    (∀ maxr : Nat, (extendDelays [1, 3, 5] maxr).length = max 3 maxr) ∧
    (∀ (maxr : Nat) (f : Nat → AgentPromptResponse),
      (∀ i, i ≤ maxr → isRetryableFailure (f i)) →
      (prompt_claude_code_with_retry f maxr none).calls = maxr + 1 ∧
      (prompt_claude_code_with_retry f maxr none).sleeps =
        (extendDelays [1, 3, 5] maxr).take maxr) := by
  refine ⟨extendDelays_default, extendDelays_default_length, ?_⟩
  intro maxr f hfail
  have hun : prompt_claude_code_with_retry f maxr none =
      retryAux f maxr (extendDelays [1, 3, 5] maxr) (maxr + 1 - 0) 0 [] none := by
    simp only [prompt_claude_code_with_retry, Nat.sub_zero]
  rw [hun, retryAux_allfail f maxr (extendDelays [1, 3, 5] maxr) maxr 0 [] none
    (by omega) hfail]
  refine ⟨rfl, ?_⟩
  show [] ++ sleepSlice (extendDelays [1, 3, 5] maxr) 0 maxr = _
  rw [List.nil_append, sleepSlice_zero, range_map_getD_eq_take maxr _
    (by rw [extendDelays_default_length]; omega)]

/-- C9 witness: max retries 5 with an always-failing agent — the schedule
is `[1, 3, 5]` extended to `[1, 3, 5, 7, 9]`, there are 6 attempts, and
the sleeps are `[1, 3, 5, 7, 9]` in order. -/
theorem retry_backoff_schedule_witness :
    extendDelays [1, 3, 5] 5 = [1, 3, 5, 7, 9] ∧
    (prompt_claude_code_with_retry
      (fun _ => ⟨"t", false, none, RetryCode.TIMEOUT_ERROR⟩) 5 none).calls = 6 ∧
    (prompt_claude_code_with_retry
      (fun _ => ⟨"t", false, none, RetryCode.TIMEOUT_ERROR⟩) 5 none).sleeps =
      [1, 3, 5, 7, 9] := by
  have h := retry_backoff_schedule.2.2 5
    (fun _ => ⟨"t", false, none, RetryCode.TIMEOUT_ERROR⟩) (by decide)
  refine ⟨by decide, h.1, ?_⟩
  rw [h.2]
  decide

/-! ## The backpressure loop scenario (claim C1) -/

/-- C1: with tests scripted to report 2 failures then 0 failures (and the
cap unlimited, as the source constant `MAX_BACKPRESSURE_LOOPS = 0` sets
it), the loop performs exactly 2 build/test iterations; between them it
writes exactly one failure artifact (one entry per failing test, each a
full `TestResult` with name, command, purpose, error), re-plans, and then
deletes the artifact — deletion unconditional on the re-planning result,
which stays abstract here — and the loop terminates in the
all-tests-passed (DONE) state. -/
theorem backpressure_two_failures_then_done (env : LoopEnv)
    (rs1 rs2 : List TestResult) (fuel : Nat)
    (hskip : env.skip_tests = false) (hmax : env.max_loops = 0)
    (h1 : env.tests 1 = TestPhaseOutcome.parsed rs1) (hf1 : failedCount rs1 = 2)
    (h2 : env.tests 2 = TestPhaseOutcome.parsed rs2) (hf2 : failedCount rs2 = 0)
    (hfuel : 2 ≤ fuel) :
    backpressureLoop env fuel =
      (some (LoopExit.done, true),
       { n := 2,
         events := [LoopEvent.build 1,
           LoopEvent.commit 1 (commit_changes (env.git 1) (buildCommitMsg env 1)).2,
           LoopEvent.test 1 (passedCount rs1) 2,
           LoopEvent.writeFailures 1 (rs1.filter fun t => !t.passed),
           LoopEvent.replan 1,
           LoopEvent.deleteFailures 1,
           LoopEvent.build 2,
           LoopEvent.commit 2 (commit_changes (env.git 2) (buildCommitMsg env 2)).2,
           LoopEvent.test 2 (passedCount rs2) 0],
         filePresent := false }) := by
  obtain ⟨k, rfl⟩ : ∃ k, fuel = k + 2 := ⟨fuel - 2, by omega⟩
  have hstep1 : loopIter env ⟨0, [], false⟩ = IterOut.next
      ⟨1, [LoopEvent.build 1,
        LoopEvent.commit 1 (commit_changes (env.git 1) (buildCommitMsg env 1)).2,
        LoopEvent.test 1 (passedCount rs1) 2,
        LoopEvent.writeFailures 1 (rs1.filter fun t => !t.passed),
        LoopEvent.replan 1,
        LoopEvent.deleteFailures 1], false⟩ := by
    have hrt : run_tests (env.tests 1) = (rs1, passedCount rs1, 2) := by
      rw [h1]
      simp [run_tests, hf1]
    simp [loopIter, hskip, hmax, hrt]
  have hstep2 : loopIter env
      ⟨1, [LoopEvent.build 1,
        LoopEvent.commit 1 (commit_changes (env.git 1) (buildCommitMsg env 1)).2,
        LoopEvent.test 1 (passedCount rs1) 2,
        LoopEvent.writeFailures 1 (rs1.filter fun t => !t.passed),
        LoopEvent.replan 1,
        LoopEvent.deleteFailures 1], false⟩ = IterOut.exit LoopExit.done true
      ⟨2, [LoopEvent.build 1,
        LoopEvent.commit 1 (commit_changes (env.git 1) (buildCommitMsg env 1)).2,
        LoopEvent.test 1 (passedCount rs1) 2,
        LoopEvent.writeFailures 1 (rs1.filter fun t => !t.passed),
        LoopEvent.replan 1,
        LoopEvent.deleteFailures 1,
        LoopEvent.build 2,
        LoopEvent.commit 2 (commit_changes (env.git 2) (buildCommitMsg env 2)).2,
        LoopEvent.test 2 (passedCount rs2) 0], false⟩ := by
    have hrt : run_tests (env.tests 2) = (rs2, passedCount rs2, 0) := by
      rw [h2]
      simp [run_tests, hf2]
    simp [loopIter, hskip, hrt]
  show loopRun env (k + 2) ⟨0, [], false⟩ = _
  rw [show k + 2 = (k + 1) + 1 from rfl]
  rw [show loopRun env ((k + 1) + 1) ⟨0, [], false⟩ =
    (match loopIter env ⟨0, [], false⟩ with
     | IterOut.exit e ap s' => (some (e, ap), s')
     | IterOut.next s' => loopRun env (k + 1) s') from rfl]
  rw [hstep1]
  show loopRun env (k + 1) _ = _
  rw [show ∀ s, loopRun env (k + 1) s =
    (match loopIter env s with
     | IterOut.exit e ap s' => (some (e, ap), s')
     | IterOut.next s' => loopRun env k s') from fun s => rfl]
  rw [hstep2]

/-- C1 witness: a concrete scripted run — two failing tests in iteration
1, all green in iteration 2 — produces exactly this 2-iteration trace,
ending DONE, with one artifact write (both failing tests recorded) and
one artifact deletion after the re-planning pass. -/
theorem backpressure_two_failures_then_done_witness :
    backpressureLoop
      ⟨fun _ => (true, none), fun _ => ⟨"M x", 0, "", 0, ""⟩,
       fun n => if n = 1 then TestPhaseOutcome.parsed
           [⟨"t1", false, "uv run pytest t1", "checks t1", some "boom"⟩,
            ⟨"t2", false, "uv run pytest t2", "checks t2", none⟩]
         else TestPhaseOutcome.parsed [⟨"t1", true, "uv run pytest t1", "checks t1", none⟩],
       fun _ => (false, some "replan warning"), false, 0, "7", "adw7"⟩ 2 =
      (some (LoopExit.done, true),
       { n := 2,
         events := [LoopEvent.build 1,
           LoopEvent.commit 1 [GitCmd.statusPorcelain, GitCmd.addAll,
             GitCmd.commit "feat: implement #7 (build loop 1)\n\nADW ID: adw7"],
           LoopEvent.test 1 0 2,
           LoopEvent.writeFailures 1
             [⟨"t1", false, "uv run pytest t1", "checks t1", some "boom"⟩,
              ⟨"t2", false, "uv run pytest t2", "checks t2", none⟩],
           LoopEvent.replan 1,
           LoopEvent.deleteFailures 1,
           LoopEvent.build 2,
           LoopEvent.commit 2 [GitCmd.statusPorcelain, GitCmd.addAll,
             GitCmd.commit "feat: implement #7 (build loop 2)\n\nADW ID: adw7"],
           LoopEvent.test 2 1 0],
         filePresent := false }) := by
  have h := backpressure_two_failures_then_done
    ⟨fun _ => (true, none), fun _ => ⟨"M x", 0, "", 0, ""⟩,
     fun n => if n = 1 then TestPhaseOutcome.parsed
         [⟨"t1", false, "uv run pytest t1", "checks t1", some "boom"⟩,
          ⟨"t2", false, "uv run pytest t2", "checks t2", none⟩]
       else TestPhaseOutcome.parsed [⟨"t1", true, "uv run pytest t1", "checks t1", none⟩],
     fun _ => (false, some "replan warning"), false, 0, "7", "adw7"⟩
    [⟨"t1", false, "uv run pytest t1", "checks t1", some "boom"⟩,
     ⟨"t2", false, "uv run pytest t2", "checks t2", none⟩]
    [⟨"t1", true, "uv run pytest t1", "checks t1", none⟩] 2
    rfl rfl (by decide) (by decide) (by decide) (by decide) (by decide)
  rw [h]
  rfl

/-! ## Output truncation (claims C5 and C6) -/

theorem truncAux_step (fuel : Nat) (output : String) (max_length : Nat) (suffix : String) :
    truncAux (fuel + 1) output max_length suffix =
      if detectJsonl output then
        match scanLines (splitNl (pyStrip output)) with
        | some text =>
          if text.length < output.length then truncAux fuel text max_length suffix
          else plainTruncate text max_length suffix
        | _ => "[JSONL output with " ++ toString (splitNl (pyStrip output)).length ++
            " messages]" ++ suffix
      else plainTruncate output max_length suffix := rfl

theorem truncAux_congr :
    ∀ (n : Nat) (output : String) (fuel1 fuel2 max_length : Nat) (suffix : String),
      output.length < fuel1 → output.length < fuel2 → output.length ≤ n →
      truncAux fuel1 output max_length suffix =
        truncAux fuel2 output max_length suffix := by
  intro n
  induction n with
  | zero =>
    intro output f1 f2 m s h1 h2 hn
    obtain ⟨g1, rfl⟩ : ∃ g, f1 = g + 1 := ⟨f1 - 1, by omega⟩
    obtain ⟨g2, rfl⟩ : ∃ g, f2 = g + 1 := ⟨f2 - 1, by omega⟩
    rw [truncAux_step, truncAux_step]
    by_cases hdet : detectJsonl output = true
    · rw [if_pos hdet, if_pos hdet]
      rcases hscan : scanLines (splitNl (pyStrip output)) with _ | t
      · rfl
      · show (if t.length < output.length then truncAux g1 t m s else plainTruncate t m s) =
          (if t.length < output.length then truncAux g2 t m s else plainTruncate t m s)
        rw [if_neg (by omega), if_neg (by omega)]
    · rw [if_neg hdet, if_neg hdet]
  | succ n ih =>
    intro output f1 f2 m s h1 h2 hn
    obtain ⟨g1, rfl⟩ : ∃ g, f1 = g + 1 := ⟨f1 - 1, by omega⟩
    obtain ⟨g2, rfl⟩ : ∃ g, f2 = g + 1 := ⟨f2 - 1, by omega⟩
    rw [truncAux_step, truncAux_step]
    by_cases hdet : detectJsonl output = true
    · rw [if_pos hdet, if_pos hdet]
      rcases hscan : scanLines (splitNl (pyStrip output)) with _ | t
      · rfl
      · show (if t.length < output.length then truncAux g1 t m s else plainTruncate t m s) =
          (if t.length < output.length then truncAux g2 t m s else plainTruncate t m s)
        by_cases hlt : t.length < output.length
        · rw [if_pos hlt, if_pos hlt]
          exact ih t g1 g2 m s (by omega) (by omega) (by omega)
        · rw [if_neg hlt, if_neg hlt]
    · rw [if_neg hdet, if_neg hdet]

theorem pyRfindChar_bounds (s : String) (c : Char) (a b : Int) :
    pyRfindChar s c a b = -1 ∨
      (0 ≤ pyRfindChar s c a b ∧
       pyRfindChar s c a b < (pySliceIdx s.length b : Int)) := by
  have hdef : pyRfindChar s c a b =
      match (((List.range (pySliceIdx s.length b)).drop (pySliceIdx s.length a)).reverse.find?
        fun i => s.data.getD i '\x00' = c) with
      | some i => (i : Int)
      | _ => -1 := rfl
  rw [hdef]
  rcases h : (((List.range (pySliceIdx s.length b)).drop (pySliceIdx s.length a)).reverse.find?
      fun i => s.data.getD i '\x00' = c) with _ | i
  · left
    rfl
  · right
    have hi := List.mem_of_find?_eq_some h
    have hi2 : i ∈ List.range (pySliceIdx s.length b) := by
      have h1 := List.mem_reverse.mp hi
      exact List.mem_of_mem_drop h1
    have hi3 := List.mem_range.mp hi2
    constructor
    · show (0 : Int) ≤ (i : Int)
      exact Int.natCast_nonneg i
    · show (i : Int) < ((pySliceIdx s.length b : Nat) : Int)
      exact_mod_cast hi3

theorem strTake_length (s : String) (n : Nat) :
    (strTake s n).length = min n s.length := by
  show (s.data.take n).length = min n s.data.length
  exact List.length_take n s.data

theorem plainTruncate_le (output : String) (max_length : Nat) (suffix : String)
    (hsuf : suffix.length + 1 ≤ max_length) :
    (plainTruncate output max_length suffix).length ≤ max_length ∧
    (output.length ≤ max_length → plainTruncate output max_length suffix = output) := by
  refine ⟨?_, fun h => by unfold plainTruncate; rw [if_pos h]⟩
  by_cases hlen : output.length ≤ max_length
  · unfold plainTruncate
    rw [if_pos hlen]
    exact hlen
  · unfold plainTruncate
    rw [if_neg hlen]
    have hta1 : (1 : Int) ≤ (max_length : Int) - (suffix.length : Int) := by
      omega
    have hslice : pySliceIdx output.length ((max_length : Int) - (suffix.length : Int)) =
        min ((max_length : Int) - (suffix.length : Int)).toNat output.length := by
      unfold pySliceIdx
      rw [if_neg (by omega)]
    have htn : ((max_length : Int) - (suffix.length : Int)).toNat =
        max_length - suffix.length := by omega
    by_cases hnp : pyRfindChar output '\n'
        ((max_length : Int) - (suffix.length : Int) - 50)
        ((max_length : Int) - (suffix.length : Int)) > 0
    · rw [if_pos hnp]
      have hb := pyRfindChar_bounds output '\n'
        ((max_length : Int) - (suffix.length : Int) - 50)
        ((max_length : Int) - (suffix.length : Int))
      have hlt : pyRfindChar output '\n'
          ((max_length : Int) - (suffix.length : Int) - 50)
          ((max_length : Int) - (suffix.length : Int)) <
          (pySliceIdx output.length ((max_length : Int) - (suffix.length : Int)) : Int) := by
        rcases hb with hb | ⟨_, hb⟩
        · omega
        · exact hb
      rw [String.length_append, strTake_length]
      rw [hslice] at hlt
      omega
    · rw [if_neg hnp]
      by_cases hsp : pyRfindChar output ' '
          ((max_length : Int) - (suffix.length : Int) - 20)
          ((max_length : Int) - (suffix.length : Int)) > 0
      · rw [if_pos hsp]
        have hb := pyRfindChar_bounds output ' '
          ((max_length : Int) - (suffix.length : Int) - 20)
          ((max_length : Int) - (suffix.length : Int))
        have hlt : pyRfindChar output ' '
            ((max_length : Int) - (suffix.length : Int) - 20)
            ((max_length : Int) - (suffix.length : Int)) <
            (pySliceIdx output.length ((max_length : Int) - (suffix.length : Int)) : Int) := by
          rcases hb with hb | ⟨_, hb⟩
          · omega
          · exact hb
        rw [String.length_append, strTake_length]
        rw [hslice] at hlt
        omega
      · rw [if_neg hsp]
        rw [String.length_append, strTake_length]
        show min (pySliceIdx output.length _) output.length + suffix.length ≤ max_length
        rw [hslice]
        omega

/-- C5 (amended): for every plain-text input — one not recognized as a
line-delimited record stream by the source's own heuristic — and every
`max_length ≥ len(suffix) + 1`, the result of `truncate_output` has
length at most `max_length` (the marker counts toward the budget), and an
input already within the limit is returned unchanged. Record-stream
inputs are instead resolved to an embedded text or a bracketed summary,
which can exceed the budget (see the counterexample). -/
theorem truncate_output_plain_budget (output : String) (max_length : Nat) (suffix : String)
    (hsuf : suffix.length + 1 ≤ max_length) (hdet : detectJsonl output = false) :
    (truncate_output output max_length suffix).length ≤ max_length ∧
    (output.length ≤ max_length → truncate_output output max_length suffix = output) := by
  have hu : truncate_output output max_length suffix =
      plainTruncate output max_length suffix := by
    unfold truncate_output
    rw [truncAux_step, if_neg (by simp [hdet])]
  rw [hu]
  exact plainTruncate_le output max_length suffix hsuf

/-- C5 witness: a long plain string is cut to within a 20-character
budget (cutting at a word boundary, marker included), and a short one is
returned unchanged. -/
theorem truncate_output_plain_budget_witness :
    (truncate_output "hello world hello world hello" 20 truncSuffix).length ≤ 20 ∧
    truncate_output "hi there" 20 truncSuffix = "hi there" ∧
    truncate_output "hello world hello world hello" 20 truncSuffix =
      "hello... (truncated)" := by
  refine ⟨?_, ?_, by rfl⟩
  · exact (truncate_output_plain_budget "hello world hello world hello" 20 truncSuffix
      (by decide) (by decide)).1
  · exact (truncate_output_plain_budget "hi there" 20 truncSuffix
      (by decide) (by decide)).2 (by decide)

/-- C5 counterexample: an input that the JSONL heuristic recognizes
(starts with `'{"type":'` and contains a second such line) but whose
lines don't parse is replaced by the bracketed summary
`[JSONL output with 2 messages]... (truncated)` — 45 characters — even
for `max_length = 20 ≥ len(suffix) + 1`, violating both the length bound
and the returned-unchanged promise. -/
theorem truncate_output_jsonl_budget_violation :
    truncSuffix.length + 1 ≤ 20 ∧
    "\x7b\"type\":\n\x7b\"type\":".length ≤ 20 ∧
    (truncate_output "\x7b\"type\":\n\x7b\"type\":" 20 truncSuffix).length = 45 ∧
    truncate_output "\x7b\"type\":\n\x7b\"type\":" 20 truncSuffix ≠
      "\x7b\"type\":\n\x7b\"type\":" := by
  refine ⟨by decide, by decide, by rfl, by decide⟩

theorem findSome?_append_none {α β : Type} (f : α → Option β) :
    ∀ (l1 l2 : List α), (∀ x ∈ l1, f x = none) →
      (l1 ++ l2).findSome? f = l2.findSome? f := by
  intro l1
  induction l1 with
  | nil =>
    intro l2 _
    rfl
  | cons a t ih =>
    intro l2 h
    have ha : f a = none := h a (List.mem_cons_self a t)
    rw [show (a :: t) ++ l2 = a :: (t ++ l2) from rfl]
    rw [List.findSome?_cons, ha]
    exact ih l2 fun x hx => h x (List.mem_cons_of_mem a hx)

/-- C6 (amended): for every input that the source's record-stream
heuristic recognizes (first line begins with the record prefix and a
later line does too), whose reversed line scan first extracts an embedded
text `t` — the terminal `result` record's text, or, scanning backwards
past lines yielding nothing, an `assistant` message's text — the function
returns `truncate_output t`, the (possibly further truncated) embedded
text, not the raw record-stream text. Streams whose first record lists
its keys in another order bypass the heuristic and are truncated
verbatim (see the counterexample). -/
theorem truncate_output_jsonl_resolves (output : String) (max_length : Nat)
    (suffix : String) (pre post : List String) (line t : String)
    (hdet : detectJsonl output = true)
    (hsplit : splitNl (pyStrip output) = pre ++ line :: post)
    (hpost : ∀ l ∈ post, lineExtractStr l = none)
    (hline : lineExtractStr line = some t)
    (hlen : t.length < output.length) :
    truncate_output output max_length suffix = truncate_output t max_length suffix := by
  have hscan : scanLines (splitNl (pyStrip output)) = some t := by
    unfold scanLines
    rw [hsplit, show pre ++ line :: post = pre ++ ([line] ++ post) from rfl]
    rw [List.reverse_append, List.reverse_append]
    rw [List.append_assoc]
    rw [findSome?_append_none lineExtractStr post.reverse _
      fun x hx => hpost x (List.mem_reverse.mp hx)]
    rw [show ([line].reverse ++ pre.reverse) = line :: pre.reverse from rfl]
    rw [List.findSome?_cons, hline]
  show truncAux (output.length + 1) output max_length suffix = _
  rw [truncAux_step, if_pos hdet, hscan]
  show (if t.length < output.length then truncAux output.length t max_length suffix
    else plainTruncate t max_length suffix) = _
  rw [if_pos hlen]
  exact truncAux_congr t.length t output.length (t.length + 1) max_length suffix
    (by omega) (by omega) le_rfl

/-- C6 witness: a two-record stream whose terminal record is a `result`
with text `"hello"` resolves to `"hello"`, not to the raw stream; and a
realistic stream whose terminal result record carries the float
`total_cost_usd` field resolves to its text `"bye"`. -/
theorem truncate_output_jsonl_resolves_witness :
    (truncate_output
        "\x7b\"type\":\"x\"\x7d\n\x7b\"type\":\"result\",\"result\":\"hello\"\x7d"
        500 truncSuffix =
      truncate_output "hello" 500 truncSuffix ∧
     truncate_output "hello" 500 truncSuffix = "hello") ∧
    (truncate_output
        "\x7b\"type\":\"assistant\"\x7d\n\x7b\"type\":\"result\",\"result\":\"bye\",\"total_cost_usd\":0.0723\x7d"
        500 truncSuffix =
      truncate_output "bye" 500 truncSuffix ∧
     truncate_output "bye" 500 truncSuffix = "bye") := by
  constructor
  · constructor
    · exact truncate_output_jsonl_resolves
        "\x7b\"type\":\"x\"\x7d\n\x7b\"type\":\"result\",\"result\":\"hello\"\x7d"
        500 truncSuffix ["\x7b\"type\":\"x\"\x7d"] []
        "\x7b\"type\":\"result\",\"result\":\"hello\"\x7d" "hello"
        (by decide) (by decide) (by intro l hl; cases hl) (by decide) (by decide)
    · rfl
  · constructor
    · exact truncate_output_jsonl_resolves
        "\x7b\"type\":\"assistant\"\x7d\n\x7b\"type\":\"result\",\"result\":\"bye\",\"total_cost_usd\":0.0723\x7d"
        500 truncSuffix ["\x7b\"type\":\"assistant\"\x7d"] []
        "\x7b\"type\":\"result\",\"result\":\"bye\",\"total_cost_usd\":0.0723\x7d" "bye"
        (by decide) (by decide) (by intro l hl; cases hl) (by decide) (by decide)
    · rfl

/-- C6 counterexample: a line-delimited stream of well-formed records
with a terminal `result` record (text `"hello"`), whose first record
merely lists its keys in a different order (`{"a":1,"type":"x"}`), is not
recognized by the heuristic — `truncate_output` returns the raw
record-stream text verbatim instead of the terminal result text. -/
theorem truncate_output_record_stream_raw :
    specIsRecordStream
        "\x7b\"a\":1,\"type\":\"x\"\x7d\n\x7b\"type\":\"result\",\"result\":\"hello\"\x7d" =
      true ∧
    specTerminalResultText
        "\x7b\"a\":1,\"type\":\"x\"\x7d\n\x7b\"type\":\"result\",\"result\":\"hello\"\x7d" =
      some "hello" ∧
    truncate_output
        "\x7b\"a\":1,\"type\":\"x\"\x7d\n\x7b\"type\":\"result\",\"result\":\"hello\"\x7d"
        500 truncSuffix =
      "\x7b\"a\":1,\"type\":\"x\"\x7d\n\x7b\"type\":\"result\",\"result\":\"hello\"\x7d" ∧
    "\x7b\"a\":1,\"type\":\"x\"\x7d\n\x7b\"type\":\"result\",\"result\":\"hello\"\x7d" ≠
      "hello" := by
  refine ⟨by decide, by decide, by rfl, by decide⟩

end ADW
